import Mathlib

/-!
Verification of the PyMVPA `Dataset` container (`mvpa2/datasets/base.py`)
against its natural-language specification.

The Python code is shallowly embedded: every fallible operation returns
`Except PyErr _`, numpy arrays are modelled as a shape together with the
row-major flat data, and the mapper classes (which live outside the
provided sources and are only orchestrated here) are modelled from the
spec as an inductive type.  Mutation of a dataset is modelled by explicit
state passing: a mutating method returns the post-state.
-/

set_option maxRecDepth 4000

/-- Python exception taxonomy used by the embedded code.  `valueError` and
`lookupError` carry the (abbreviated) message so that distinct failure
modes of the source stay distinguishable. -/
inductive PyErr where
  | valueError (msg : String)
  | lookupError (msg : String)
  | keyError (k : String)
  | typeError
  | indexError
  | attributeError
deriving Repr, DecidableEq

/-- A numpy array: its shape and its row-major flat data. -/
structure NDA (α : Type) where
  shape : List Nat
  data : List α
deriving Repr, DecidableEq

/-- Index expressions that can appear in one slot of a Python indexing
tuple: a full slice `:`, a plain integer, a list of integers, an integer
ndarray, or a boolean ndarray. -/
inductive Sel where
  | sliceAll
  | intE (i : Int)
  | ilist (l : List Int)
  | narr (a : NDA Int)
  | barr (a : NDA Bool)
deriving Repr, DecidableEq

/-- Number of dimensions of the index expression when it is an ndarray
(`len(args[1].shape)` in the source); `0` for non-array expressions. -/
def Sel.ndim : Sel → Nat
  | .narr a => a.shape.length
  | .barr a => a.shape.length
  | _ => 0

/-- Normalize one Python integer index against an axis of length `n`:
negative indices count from the end, out-of-range indices raise
`IndexError`. -/
def normIdx (i : Int) (n : Nat) : Except PyErr Nat :=
  let j : Int := if i < 0 then i + n else i
  if 0 ≤ j ∧ j < (n : Int) then .ok j.toNat else .error .indexError

/-- Positions on an axis of length `n` selected by an index expression
(numpy semantics: full slice keeps everything, integer and fancy integer
indexing with negative wrap-around, a boolean mask must match the axis
length and keeps the `True` positions). -/
def selIdxs : Sel → Nat → Except PyErr (List Nat)
  | .sliceAll, n => .ok (List.range n)
  | .intE i, n => do
      let j ← normIdx i n
      .ok [j]
  | .ilist l, n => l.mapM (fun i => normIdx i n)
  | .narr a, n =>
      match a.shape with
      | [_] => a.data.mapM (fun i => normIdx i n)
      | _ => .error .indexError
  | .barr a, n =>
      if a.shape = [n] then
        .ok ((List.range n).filter (fun i => a.data.getD i false))
      else .error .indexError

/-- Modelled from the spec: the mapper interface (`mvpa2.mappers.*`,
`mvpa2.featsel.base`) is an external collaborator of the shown code.
`flattenM` is `FlattenMapper(shape, space)`, `staticFS` is
`StaticFeatureSelection(ids, dshape)` with its learned output shape
(`none` until a forward pass charged it), `maskM` is the mapper built by
`mask_mapper(mask, space)`, and `chainM` is `ChainMapper(ms)`. -/
inductive Mapper where
  | flattenM (sh : List Nat) (space : Option String)
  | staticFS (ids : Sel) (dshape : List Nat) (oshape : Option (List Nat))
  | maskM (mask : NDA Bool) (space : Option String)
  | chainM (ms : List Mapper)

/-- True exactly for `ChainMapper` instances (`isinstance(m, ChainMapper)`). -/
def Mapper.isChain : Mapper → Bool
  | .chainM _ => true
  | _ => false

/-- True exactly for `StaticFeatureSelection` instances. -/
def Mapper.isStaticFS : Mapper → Bool
  | .staticFS _ _ _ => true
  | _ => false

/-- Row-major positions of the `True` entries of a boolean mask array. -/
def maskPositions (mk : NDA Bool) : List Nat :=
  (List.range mk.shape.prod).filter (fun i => mk.data.getD i false)

mutual

/-- Modelled from the spec: `forward1` maps a single array given in the
mapper input space to the mapper output space.  Flattening reshapes to
one dimension, a static feature selection picks the selected positions
out of a flat vector, a mask mapper keeps the positions of its `True`
entries, and a chain threads the array through its members in order. -/
def Mapper.forward1 {α : Type} [Inhabited α] : Mapper → NDA α → Except PyErr (NDA α)
  | .flattenM sh _, a =>
      if a.shape = sh then .ok ⟨[sh.prod], a.data⟩
      else .error (.valueError "flatten forward1 shape mismatch")
  | .staticFS s _ _, a =>
      match a.shape with
      | [n] => do
          let idxs ← selIdxs s n
          .ok ⟨[idxs.length], idxs.map (fun i => a.data.getD i default)⟩
      | _ => .error (.valueError "static selection forward1 expects flat input")
  | .maskM mk _, a =>
      if a.shape = mk.shape then
        .ok ⟨[(maskPositions mk).length],
             (maskPositions mk).map (fun i => a.data.getD i default)⟩
      else .error (.valueError "mask forward1 shape mismatch")
  | .chainM ms, a => Mapper.forward1List ms a

/-- Thread an array through the members of a chain, first member first. -/
def Mapper.forward1List {α : Type} [Inhabited α] : List Mapper → NDA α → Except PyErr (NDA α)
  | [], a => .ok a
  | m :: t, a => do
      let b ← Mapper.forward1 m a
      Mapper.forward1List t b

end

mutual

/-- Modelled from the spec: `forward` on a samples-like array (first axis
separates samples).  It returns the mapped array together with the
possibly updated mapper: a static feature selection learns (caches) its
output shape from the pass, which is exactly what the slicing engine
exploits on a throwaway all-false matrix. -/
def Mapper.forwardArr {α : Type} [Inhabited α] :
    Mapper → NDA α → Except PyErr (NDA α × Mapper)
  | .flattenM sh sp, a =>
      match a.shape with
      | n :: rest =>
          if rest = sh then .ok (⟨[n, sh.prod], a.data⟩, .flattenM sh sp)
          else .error (.valueError "flatten forward shape mismatch")
      | [] => .error (.valueError "flatten forward shape mismatch")
  | .staticFS s d _, a =>
      match a.shape with
      | [n, c] => do
          let idxs ← selIdxs s c
          let out : NDA α :=
            ⟨[n, idxs.length],
             (List.range n).flatMap
               (fun r => idxs.map (fun j => a.data.getD (r * c + j) default))⟩
          .ok (out, .staticFS s d (some [idxs.length]))
      | _ => .error (.valueError "static selection forward expects 2d input")
  | .maskM mk sp, a =>
      match a.shape with
      | n :: rest =>
          if rest = mk.shape then
            let pos := maskPositions mk
            let rs := rest.prod
            .ok (⟨[n, pos.length],
                  (List.range n).flatMap
                    (fun r => pos.map (fun j => a.data.getD (r * rs + j) default))⟩,
                 .maskM mk sp)
          else .error (.valueError "mask forward shape mismatch")
      | [] => .error (.valueError "mask forward shape mismatch")
  | .chainM ms, a => do
      let (b, ms) ← Mapper.forwardArrList ms a
      .ok (b, .chainM ms)

/-- Thread a samples array through the members of a chain. -/
def Mapper.forwardArrList {α : Type} [Inhabited α] :
    List Mapper → NDA α → Except PyErr (NDA α × List Mapper)
  | [], a => .ok (a, [])
  | m :: t, a => do
      let (b, m) ← Mapper.forwardArr m a
      let (cres, t) ← Mapper.forwardArrList t b
      .ok (cres, m :: t)

end

/-- Apply `forward1` to an index expression when it is an ndarray (the
slicing engine feeds `args[1]` through `self.a.mapper.forward1`). -/
def Mapper.forward1Sel (m : Mapper) : Sel → Except PyErr Sel
  | .narr a => do
      let b ← m.forward1 a
      .ok (.narr b)
  | .barr a => do
      let b ← m.forward1 a
      .ok (.barr b)
  | s => .ok s

/-- Value stored under a name in one of the three attribute collections:
either an array (samples/feature attributes, array-valued dataset
attributes) or a mapper object (the reserved `mapper` dataset attribute). -/
inductive AttrVal where
  | arr (a : NDA Nat)
  | mapperV (m : Mapper)

/-- An attribute collection: an ordered name-to-value mapping (the
collection primitive itself is an external collaborator; insertion order
is preserved, assignment to an existing key replaces in place). -/
abbrev Coll := List (String × AttrVal)

/-- Containment test of the collection primitive (`attr in self.sa`). -/
def colHas (c : Coll) (k : String) : Bool :=
  (List.lookup k c).isSome

/-- Assignment of the collection primitive: replace in place when the key
exists, append otherwise. -/
def colSet : Coll → String → AttrVal → Coll
  | [], k, v => [(k, v)]
  | (k', v') :: t, k, v =>
      if k' = k then (k, v) :: t else (k', v') :: colSet t k v

/-- The length of an attribute value along its first axis (used by the
collection primitive to validate sample/feature attributes). -/
def AttrVal.len : AttrVal → Option Nat
  | .arr a => a.shape.head?
  | .mapperV _ => none

/-- The annotated dataset container: a samples array and the three
attribute collections (`sa` per observation, `fa` per variable, `a` for
the whole dataset; the mapper chain lives in `a` under key `mapper`). -/
structure Dataset where
  samples : NDA Nat
  sa : Coll
  fa : Coll
  a : Coll

/-- The three recognized collection identifiers. -/
inductive CollKind where
  | sa
  | fa
  | a
deriving Repr, DecidableEq

/-- The collection object a kind refers to. -/
def Dataset.getColl (ds : Dataset) : CollKind → Coll
  | .sa => ds.sa
  | .fa => ds.fa
  | .a => ds.a

/-- Number of observations (rows) of the dataset. -/
def Dataset.nrows (ds : Dataset) : Nat :=
  ds.samples.shape.headD 0

/-- Number of features (columns) of the current view. -/
def Dataset.ncols (ds : Dataset) : Nat :=
  ds.samples.shape.tail.prod

/-- Dataset.find_collection: look up the collection containing an
attribute of the given name, searching sample, then feature, then
dataset attributes.  The returned boolean records whether the non-fatal
ambiguity `warning(...)` was emitted (the name was also present in a
lower-precedence collection). -/
def Dataset.find_collection (ds : Dataset) (attr : String) :
    Except PyErr (CollKind × Bool) :=
  if colHas ds.sa attr then
    .ok (.sa, colHas ds.fa attr || colHas ds.a attr)
  else if colHas ds.fa attr then
    .ok (.fa, colHas ds.a attr)
  else if colHas ds.a attr then
    .ok (.a, false)
  else
    .error (.lookupError "Cannot find attribute in any dataset collection")

/-- Dataset._collection_id2obj: translate a collection identifier into
the collection, failing with a LookupError on anything unrecognized. -/
def Dataset.collection_id2obj (col : String) : Except PyErr CollKind :=
  if col = "sa" then .ok .sa
  else if col = "fa" then .ok .fa
  else if col = "a" then .ok .a
  else .error (.lookupError "Unknown collection")

/-- Assignment into a resolved collection, including the length
validation the collection primitive performs on sample and feature
attributes.  Returns the outcome together with the post-state of the
dataset; on error the state is the untouched receiver. -/
def Dataset.setInColl (ds : Dataset) (k : CollKind) (n : String) (v : AttrVal) :
    Except PyErr Unit × Dataset :=
  match k with
  | .sa =>
      if v.len = some ds.nrows then (.ok (), { ds with sa := colSet ds.sa n v })
      else (.error (.valueError "sample attribute length mismatch"), ds)
  | .fa =>
      if v.len = some ds.ncols then (.ok (), { ds with fa := colSet ds.fa n v })
      else (.error (.valueError "feature attribute length mismatch"), ds)
  | .a => (.ok (), { ds with a := colSet ds.a n v })

/-- Python string split on a single character: every occurrence
separates, empty fragments are kept (`"".split` yields one empty
fragment). -/
def splitOnChar (c : Char) : List Char → List (List Char)
  | [] => [[]]
  | x :: t =>
      match splitOnChar c t with
      | [] => [[]]
      | h :: r => if x = c then [] :: h :: r else (x :: h) :: r

/-- Python `s.split(c)` on our string model. -/
def pySplit (s : String) (c : Char) : List String :=
  (splitOnChar c s.data).map (fun l => String.mk l)

/-- Dataset.set_attr with explicit state passing: `name.split(sep)[0:2]`
uses only the first two dot-separated components when a dot is present,
otherwise the collection is auto-detected via `find_collection`. -/
def Dataset.set_attrS (ds : Dataset) (name : String) (v : AttrVal) :
    Except PyErr Unit × Dataset :=
  match pySplit name (Char.ofNat 46) with
  | c :: n :: _ =>
      match Dataset.collection_id2obj c with
      | .error e => (.error e, ds)
      | .ok k => ds.setInColl k n v
  | _ =>
      match ds.find_collection name with
      | .error e => (.error e, ds)
      | .ok (k, _) => ds.setInColl k name v

/-- Dataset.get_attr: return the attribute value together with the
collection it came from.  A dotted name resolves the collection
explicitly from the first component and the attribute from the second,
discarding any further components. -/
def Dataset.get_attr (ds : Dataset) (name : String) :
    Except PyErr (AttrVal × CollKind) :=
  match pySplit name (Char.ofNat 46) with
  | c :: n :: _ => do
      let k ← Dataset.collection_id2obj c
      match List.lookup n (ds.getColl k) with
      | some v => .ok (v, k)
      | none => .error (.keyError n)
  | _ => do
      let kw ← ds.find_collection name
      match List.lookup name (ds.getColl kw.1) with
      | some v => .ok (v, kw.1)
      | none => .error (.keyError name)

/-- Modelled from the spec: in-place composition of a static feature
selection with another mapper (`lastmapper += mapper`).  The composition
succeeds only when the other mapper is itself a static feature selection
whose selection can be composed with the current one; otherwise the
distinguishable incompatibility failure (a TypeError, here `none`) is
raised. -/
def selCompose : Sel → Sel → Option Sel
  | s, .sliceAll => some s
  | .sliceAll, s => some s
  | .ilist l1, .ilist l2 =>
      if l2.all (fun i => decide (0 ≤ i) && decide (i < (l1.length : Int))) then
        some (.ilist (l2.map (fun i => l1.getD i.toNat 0)))
      else none
  | _, _ => none

/-- Modelled from the spec: `StaticFeatureSelection.__iadd__`; `none`
models the TypeError raised when the two mappers cannot be merged. -/
def sfsIadd (s : Sel) (d : List Nat) (m : Mapper) : Option Mapper :=
  match m with
  | .staticFS s2 _ o2 =>
      match selCompose s s2 with
      | some s3 => some (.staticFS s3 d o2)
      | none => none
  | _ => none

/-- The elements of a mapper viewed as a chain (`ChainMapper([pmapper])`
promotion wraps a bare mapper into a chain of length one). -/
def Mapper.chainElems : Mapper → List Mapper
  | .chainM ms => ms
  | m => [m]

/-- Dataset._append_mapper: record a mapper in the `mapper` dataset
attribute.  With no chain yet the mapper is stored bare; otherwise a
bare mapper is first promoted to a chain of length one, and if the last
chain element is a static feature selection an in-place merge is
attempted, with the incompatibility TypeError caught and converted into
a plain append.  The only failure is `mapper[-1]` on an (unreachable in
the shown code) empty chain. -/
def Dataset.append_mapper (ds : Dataset) (m : Mapper) : Except PyErr Dataset :=
  match List.lookup "mapper" ds.a with
  | none => .ok { ds with a := colSet ds.a "mapper" (.mapperV m) }
  | some (.mapperV pm) =>
      let ms := pm.chainElems
      match ms.getLast? with
      | none => .error .indexError
      | some (.staticFS s d _) =>
          match sfsIadd s d m with
          | some merged =>
              .ok { ds with a := colSet ds.a "mapper" (.mapperV (.chainM (ms.dropLast ++ [merged]))) }
          | none =>
              .ok { ds with a := colSet ds.a "mapper" (.mapperV (.chainM (ms ++ [m]))) }
      | some _ =>
          .ok { ds with a := colSet ds.a "mapper" (.mapperV (.chainM (ms ++ [m]))) }
  | some _ => .error .typeError

/-- Slice an attribute value along its first axis at the given positions
(how the base slicing primitive subsets sample and feature attributes). -/
def AttrVal.sliceAt : AttrVal → List Nat → AttrVal
  | .arr a, idxs =>
      match a.shape with
      | _ :: rest =>
          let rs := rest.prod
          .arr ⟨idxs.length :: rest,
                idxs.flatMap (fun i => (List.range rs).map (fun j => a.data.getD (i * rs + j) 0))⟩
      | [] => .arr a
  | .mapperV m, _ => .mapperV m

/-- Modelled from the spec: the underlying row/column slicing primitive
(`AttrDataset.__getitem__` of the base class).  It selects rows and
columns of the two-dimensional sample matrix in one bulk operation,
subsets the sample attributes by the selected rows and the feature
attributes by the selected columns, and carries the dataset attributes
(including a recorded mapper) over unchanged. -/
def baseGetitem (ds : Dataset) (args : List Sel) : Except PyErr Dataset := do
  match ds.samples.shape with
  | [n, c] =>
      let rsel := args.headD .sliceAll
      let csel := args.getD 1 .sliceAll
      let rows ← selIdxs rsel n
      let cols ← selIdxs csel c
      let data := rows.flatMap (fun r => cols.map (fun j => ds.samples.data.getD (r * c + j) 0))
      .ok { samples := ⟨[rows.length, cols.length], data⟩,
            sa := ds.sa.map (fun kv => (kv.1, kv.2.sliceAt rows)),
            fa := ds.fa.map (fun kv => (kv.1, kv.2.sliceAt cols)),
            a := ds.a }
  | _ => .error .indexError

/-- A Python index: either a single expression or a tuple of them. -/
inductive PyIndex where
  | single (s : Sel)
  | tup (l : List Sel)

/-- Uniformize an index to a tuple (`if not isinstance(args, tuple):
args = (args,)`). -/
def PyIndex.toArgs : PyIndex → List Sel
  | .single s => [s]
  | .tup l => l

/-- Build and charge the slice mapper of the slicing engine: construct
`StaticFeatureSelection(args[1], dshape=self.samples.shape[1:])` and
forward an all-false placeholder of shape `(1,) + self.shape[1:]`
through it purely so the mapper learns its output shape. -/
def chargeSFS (s : Sel) (ds : Dataset) : Except PyErr Mapper := do
  let subsetmapper := Mapper.staticFS s ds.samples.shape.tail none
  let zeros : NDA Bool :=
    ⟨1 :: ds.samples.shape.tail, List.replicate ds.samples.shape.tail.prod false⟩
  let r ← subsetmapper.forwardArr zeros
  .ok r.2

/-- Dataset.__getitem__: uniformize the index, feed a more-than-1-D
ndarray feature selector through the recorded mapper chain when one
exists, delegate to the base slicing primitive, and afterwards append a
freshly charged static-feature-selection mapper to the sliced dataset
when a feature-axis index element was present. -/
def Dataset.getitem (ds : Dataset) (ix : PyIndex) : Except PyErr Dataset := do
  let args := ix.toArgs
  let args ←
    match args with
    | a0 :: a1 :: rest =>
        if a1.ndim > 1 ∧ colHas ds.a "mapper" then
          match List.lookup "mapper" ds.a with
          | some (.mapperV m) => do
              let a1 ← m.forward1Sel a1
              pure (a0 :: a1 :: rest)
          | _ => .error .attributeError
        else pure args
    | _ => pure args
  let sliced ← baseGetitem ds args
  match args with
  | _ :: a1 :: _ =>
      if colHas sliced.a "mapper" then do
        let subsetmapper ← chargeSFS a1 ds
        sliced.append_mapper subsetmapper
      else pure sliced
  | _ => pure sliced

mutual

/-- Modelled from the spec: `forward` of a mapper applied to a whole
dataset.  Flattening collapses all non-observation axes of the samples
into one feature axis, a static feature selection keeps the selected
columns (subsetting the feature attributes accordingly), a mask mapper
flattens and keeps the positions of its `True` entries, and a chain
threads the dataset through its members in order.  Attribute collections
not touched by the transform are carried over. -/
def Mapper.forwardDs : Mapper → Dataset → Except PyErr Dataset
  | .flattenM sh _, ds =>
      match ds.samples.shape with
      | n :: rest =>
          if rest = sh then
            .ok { ds with samples := ⟨[n, sh.prod], ds.samples.data⟩ }
          else .error (.valueError "flatten forward shape mismatch")
      | [] => .error (.valueError "flatten forward shape mismatch")
  | .staticFS s _ _, ds =>
      match ds.samples.shape with
      | [n, c] => do
          let idxs ← selIdxs s c
          let data := (List.range n).flatMap
            (fun r => idxs.map (fun j => ds.samples.data.getD (r * c + j) 0))
          .ok { ds with
                samples := ⟨[n, idxs.length], data⟩,
                fa := ds.fa.map (fun kv => (kv.1, kv.2.sliceAt idxs)) }
      | _ => .error (.valueError "static selection forward expects 2d input")
  | .maskM mk _, ds =>
      match ds.samples.shape with
      | n :: rest =>
          if rest = mk.shape then
            let pos := maskPositions mk
            let rs := rest.prod
            let data := (List.range n).flatMap
              (fun r => pos.map (fun j => ds.samples.data.getD (r * rs + j) 0))
            .ok { ds with samples := ⟨[n, pos.length], data⟩ }
          else .error (.valueError "mask forward shape mismatch")
      | [] => .error (.valueError "mask forward shape mismatch")
  | .chainM ms, ds => Mapper.forwardDsList ms ds

/-- Thread a dataset through the members of a chain. -/
def Mapper.forwardDsList : List Mapper → Dataset → Except PyErr Dataset
  | [], ds => .ok ds
  | m :: t, ds => do
      let ds ← Mapper.forwardDs m ds
      Mapper.forwardDsList t ds

end

/-- Modelled from the spec: training a mapper on a dataset.  The only
mapper trained by the shown code is the mask mapper built in
`from_wizard`, which learns from the dataset whose per-sample shape must
match the mask. -/
def Mapper.train (m : Mapper) (ds : Dataset) : Except PyErr Mapper :=
  match m with
  | .maskM mk sp =>
      if ds.samples.shape.tail = mk.shape then .ok (.maskM mk sp)
      else .error (.valueError "mask training shape mismatch")
  | m => .ok m

/-- Dataset.get_mapped: feed the dataset through a trained mapper via
`forward` (not the call path) and record the mapper on the result. -/
def Dataset.get_mapped (ds : Dataset) (m : Mapper) : Except PyErr Dataset := do
  let mds ← m.forwardDs ds
  mds.append_mapper m

/-- A `targets`/`chunks` argument of `from_wizard`: either a scalar that
is broadcast over all observations or an explicit vector. -/
inductive AttrSpec where
  | scalar (x : Nat)
  | vec (a : NDA Nat)

/-- Modelled from the spec: `_expand_attribute` expands a scalar into a
full observation vector and accepts an already-correctly-sized vector
as-is; any other shape fails with a shape-mismatch error. -/
def expandAttr (v : AttrSpec) (n : Nat) : Except PyErr (NDA Nat) :=
  match v with
  | .scalar x => .ok ⟨[n], List.replicate n x⟩
  | .vec a =>
      if a.shape.head? = some n then .ok a
      else .error (.valueError "attribute length does not match the number of samples")

/-- Dataset.from_wizard: expand `targets`/`chunks` into sample
attributes, build the base dataset, auto-flatten a more-than-2-D array
when no mask is given and flattening was requested or defaulted, apply a
trained mask mapper when a mask is given, and finally apply a
user-supplied mapper. -/
def Dataset.from_wizard (samples : NDA Nat) (targets chunks : Option AttrSpec)
    (mask : Option (NDA Bool)) (mapper : Option Mapper) (flatten : Option Bool)
    (space : Option String) : Except PyErr Dataset := do
  let n := samples.shape.headD 0
  let sa0 : Coll := []
  let sa1 ←
    match targets with
    | none => pure sa0
    | some t => do
        let v ← expandAttr t n
        pure (colSet sa0 "targets" (.arr v))
  let sa2 ←
    match chunks with
    | none => pure sa1
    | some ch => do
        let v ← expandAttr ch n
        pure (colSet sa1 "chunks" (.arr v))
  let ds : Dataset := { samples := samples, sa := sa2, fa := [], a := [] }
  let ds ←
    match mask with
    | none =>
        if samples.shape.length > 2 ∧
            ((flatten.isNone ∧ mapper.isNone) ∨ flatten = some true) then
          ds.get_mapped (.flattenM samples.shape.tail space)
        else pure ds
    | some mka => do
        let mm := Mapper.maskM mka space
        let mm ← mm.train ds
        ds.get_mapped mm
  match mapper with
  | none => pure ds
  | some m => ds.get_mapped m

/-- Attribute access `ds.a.mapper`: the recorded mapper, or an
AttributeError when the key is absent or its value is not a mapper. -/
def Dataset.aMapper (ds : Dataset) : Except PyErr Mapper :=
  match List.lookup "mapper" ds.a with
  | some (.mapperV m) => .ok m
  | _ => .error .attributeError

/-- Assignment `ds.fa[name] = v` surfacing the collection validation
error (used by `from_channeltimeseries`). -/
def Dataset.setFa (ds : Dataset) (nme : String) (v : AttrVal) : Except PyErr Dataset :=
  match ds.setInColl .fa nme v with
  | (.ok _, ds) => .ok ds
  | (.error e, _) => .error e

/-- Dataset.from_channeltimeseries: require a 3-D input
(samples x channels x timepoints); when both a time origin and step are
given build the timepoint grid broadcast over channels; when channel ids
are given validate their count against the channel axis and broadcast
them over timepoints; delegate to `from_wizard` and attach the grids,
forward-mapped through the recorded mapper, as feature attributes.  The
floating-point `np.arange(t0, t0 + nt * dt, dt)` is modelled as the
exact arithmetic progression of length `nt` over the naturals. -/
def Dataset.from_channeltimeseries (samples : NDA Nat)
    (targets chunks : Option AttrSpec) (t0 dt : Option Nat)
    (channelids : Option (List Nat)) : Except PyErr Dataset := do
  if samples.shape.length ≠ 3 then
    .error (.valueError "Input data should be samples x channels x timepoints")
  else do
  let nch := samples.shape.getD 1 0
  let ntp := samples.shape.getD 2 0
  let timepoints : Option (NDA Nat) :=
    match t0, dt with
    | some a, some b =>
        some ⟨[nch, ntp],
              (List.range nch).flatMap (fun _ => (List.range ntp).map (fun k => a + k * b))⟩
    | _, _ => none
  let cids : Option (NDA Nat) ←
    match channelids with
    | none => pure none
    | some l =>
        if l.length ≠ nch then
          .error (.valueError "Number of channel ids does not match channels")
        else
          pure (some ⟨[nch, ntp], l.flatMap (fun cid => List.replicate ntp cid)⟩)
  let ds ← Dataset.from_wizard samples targets chunks none none none none
  let ds ←
    match timepoints with
    | none => pure ds
    | some tp => do
        let m ← ds.aMapper
        let v ← m.forward1 tp
        ds.setFa "timepoints" (.arr v)
  let ds ←
    match cids with
    | none => pure ds
    | some cg => do
        let m ← ds.aMapper
        let v ← m.forward1 cg
        ds.setFa "channels" (.arr v)
  pure ds

/-- The attribute portion of the fingerprint contributed by one
collection: attribute names iterated in lexicographically sorted order
(`keys.sort()`), each contributing a fragment built from the name and
the fingerprint of its value.  The value fingerprint `idhash_` is an
external collaborator, passed in as `fpv`. -/
def idhashCol (fpv : AttrVal → String) (col : Coll) : String :=
  (List.insertionSort (fun x y => x ≤ y) (col.map Prod.fst)).foldl
    (fun r k =>
      r ++ " " ++ k ++ "@" ++ fpv ((List.lookup k col).getD (.arr ⟨[], []⟩)))
    ""

/-- Dataset.idhash: the identity fingerprint of the dataset object, the
fingerprint of the sample matrix, then the three collections in the
order `(a, sa, fa)`, each with names sorted.  `fpd`, `fpa` and `fpv`
model the external `idhash_` helper on the three kinds of values. -/
def Dataset.idhash (fpd : Dataset → String) (fpa : NDA Nat → String)
    (fpv : AttrVal → String) (ds : Dataset) : String :=
  "self@" ++ fpd ds ++ " samples@" ++ fpa ds.samples
    ++ idhashCol fpv ds.a ++ idhashCol fpv ds.sa ++ idhashCol fpv ds.fa

/-- The placeholder sample source: only the sample-id and feature-id
vectors and a declared element type are stored. -/
structure HollowSamples where
  sid : List Nat
  fid : List Nat
  dtype : String
deriving Repr, DecidableEq

/-- HollowSamples.__init__: requires a shape or id vectors (raising a
configuration ValueError when all are absent), rejects a shape that is
not exactly two-dimensional, derives missing id vectors from the shape
(a missing shape then surfaces as a TypeError from subscripting `None`),
and runs the final sanity comparison of the id vectors against an
explicit shape exactly as the source writes it: both mismatch tests
joined with `and`. -/
def HollowSamples.init (shape : Option (List Nat)) (sid fid : Option (List Nat))
    (dtype : String) : Except PyErr HollowSamples :=
  if shape.isNone ∧ sid.isNone ∧ fid.isNone then
    .error (.valueError "Either shape or ID vectors have to be given")
  else if shape.isSome ∧ (shape.getD []).length ≠ 2 then
    .error (.valueError "Only two-dimensional shapes are supported")
  else do
    let sid ←
      match sid, shape with
      | some v, _ => pure v
      | none, some s => pure (List.range (s.getD 0 0))
      | none, none => .error .typeError
    let fid ←
      match fid, shape with
      | some v, _ => pure v
      | none, some s => pure (List.range (s.getD 1 0))
      | none, none => .error .typeError
    let hs : HollowSamples := ⟨sid, fid, dtype⟩
    match shape with
    | some s =>
        if sid.length ≠ s.getD 0 0 ∧ fid.length ≠ s.getD 1 0 then
          .error (.valueError "Provided ID vectors do not match given shape")
        else pure hs
    | none => pure hs

/-- The derived shape property of the placeholder: the id vector lengths. -/
def HollowSamples.shape (hs : HollowSamples) : Nat × Nat :=
  (hs.sid.length, hs.fid.length)

/-- The materialization of the placeholder: an all-zero matrix of the
current shape and declared element type. -/
def HollowSamples.samples (hs : HollowSamples) : NDA Nat :=
  ⟨[hs.sid.length, hs.fid.length], List.replicate (hs.sid.length * hs.fid.length) 0⟩

/-- HollowSamples.__getitem__: uniformize the index to a tuple, reject
more than two expressions, expand a single expression with a full
column slice, normalize plain integers to single-element lists, apply
both expressions to the id vectors and rebuild through the constructor.
An empty tuple reaches `args[0]` on an empty list and raises an
IndexError. -/
def HollowSamples.getitem (hs : HollowSamples) (ix : PyIndex) :
    Except PyErr HollowSamples := do
  let args := ix.toArgs
  if args.length > 2 then
    .error (.valueError "Too many arguments")
  else do
  let args := if args.length = 1 then [args.headD .sliceAll, .sliceAll] else args
  let args := args.map (fun a =>
    match a with
    | .intE i => .ilist [i]
    | x => x)
  match args with
  | a0 :: a1 :: _ => do
      let sidx ← selIdxs a0 hs.sid.length
      let fidx ← selIdxs a1 hs.fid.length
      let sid := sidx.map (fun i => hs.sid.getD i 0)
      let fid := fidx.map (fun i => hs.fid.getD i 0)
      HollowSamples.init (some [sid.length, fid.length]) (some sid) (some fid) hs.dtype
  | _ => .error .indexError

/-- C5: collection resolution for a bare attribute name searches
observation (sample) attributes, then variable (feature) attributes,
then dataset attributes, in that fixed precedence order, returning the
first collection containing the name; it raises a lookup error when the
name is present in no collection, and when the name is additionally
present in a lower-precedence collection it still returns the
higher-precedence one while emitting a non-fatal ambiguity warning (the
boolean component of the result). -/
theorem find_collection_precedence (ds : Dataset) (attr : String) :
    (colHas ds.sa attr = true →
      ds.find_collection attr = .ok (.sa, colHas ds.fa attr || colHas ds.a attr))
    ∧ (colHas ds.sa attr = false → colHas ds.fa attr = true →
      ds.find_collection attr = .ok (.fa, colHas ds.a attr))
    ∧ (colHas ds.sa attr = false → colHas ds.fa attr = false →
        colHas ds.a attr = true →
      ds.find_collection attr = .ok (.a, false))
    ∧ (colHas ds.sa attr = false → colHas ds.fa attr = false →
        colHas ds.a attr = false →
      ds.find_collection attr
        = .error (.lookupError "Cannot find attribute in any dataset collection")) := by
  refine ⟨fun h1 => ?_, fun h1 h2 => ?_, fun h1 h2 h3 => ?_, fun h1 h2 h3 => ?_⟩ <;>
    simp [Dataset.find_collection, h1, *]

/-- Witness for C5 on a concrete dataset: the name `targets` lives in
both the sample and the dataset collections, so resolution returns the
sample collection with the ambiguity warning; a name present nowhere
raises the lookup error. -/
theorem find_collection_precedence_witness :
    ({ samples := ⟨[2,3], [1,2,3,4,5,6]⟩,
       sa := [("targets", .arr ⟨[2],[0,1]⟩)],
       fa := [("x", .arr ⟨[3],[7,8,9]⟩)],
       a := [("targets", .arr ⟨[1],[9]⟩)] } : Dataset).find_collection "targets"
      = .ok (.sa, true)
    ∧ ({ samples := ⟨[2,3], [1,2,3,4,5,6]⟩,
         sa := [("targets", .arr ⟨[2],[0,1]⟩)],
         fa := [("x", .arr ⟨[3],[7,8,9]⟩)],
         a := [("targets", .arr ⟨[1],[9]⟩)] } : Dataset).find_collection "zz"
      = .error (.lookupError "Cannot find attribute in any dataset collection") := by
  constructor
  · exact (find_collection_precedence _ "targets").1 rfl
  · exact (find_collection_precedence _ "zz").2.2.2 rfl rfl rfl

/-- C10: for a name with two or more dots handed to `get_attr` or
`set_attr`, only the first two dot-separated components take part: the
first picks the collection, the second the attribute, and every further
component is silently discarded. -/
theorem dotted_name_uses_first_two_components (ds : Dataset) (nm c attr : String)
    (rest : List String) (v : AttrVal) (hsplit : pySplit nm (Char.ofNat 46) = c :: attr :: rest) :
    ds.get_attr nm
      = (do
          let k ← Dataset.collection_id2obj c
          match List.lookup attr (ds.getColl k) with
          | some w => .ok (w, k)
          | none => .error (.keyError attr))
    ∧ ds.set_attrS nm v
      = (match Dataset.collection_id2obj c with
         | .error e => (.error e, ds)
         | .ok k => ds.setInColl k attr v) := by
  constructor
  · simp only [Dataset.get_attr, hsplit]
  · simp only [Dataset.set_attrS, hsplit]

/-- Witness for C10: on a concrete dataset, `sa.x.y` reads and writes
attribute `x` of the sample collection, with the trailing `.y`
discarded. -/
theorem dotted_name_uses_first_two_components_witness :
    ({ samples := ⟨[2,3], [1,2,3,4,5,6]⟩,
       sa := [("x", .arr ⟨[2],[5,6]⟩)],
       fa := [], a := [] } : Dataset).get_attr "sa.x.y" = .ok (.arr ⟨[2],[5,6]⟩, .sa)
    ∧ ({ samples := ⟨[2,3], [1,2,3,4,5,6]⟩,
         sa := [("x", .arr ⟨[2],[5,6]⟩)],
         fa := [], a := [] } : Dataset).set_attrS "sa.x.y" (.arr ⟨[2],[7,8]⟩)
      = (.ok (), { samples := ⟨[2,3], [1,2,3,4,5,6]⟩,
                   sa := [("x", .arr ⟨[2],[7,8]⟩)],
                   fa := [], a := [] }) := by
  have h := dotted_name_uses_first_two_components
    ({ samples := ⟨[2,3], [1,2,3,4,5,6]⟩,
       sa := [("x", .arr ⟨[2],[5,6]⟩)],
       fa := [], a := [] } : Dataset) "sa.x.y" "sa" "x" ["y"] (.arr ⟨[2],[7,8]⟩)
    (by decide)
  exact ⟨h.1.trans rfl, h.2.trans rfl⟩

/-- C4: evaluation of the constructor at the failing input.  The source
joins the two sanity comparisons with `and`, so a sample-id vector that
disagrees with an explicitly given shape slips through whenever the
feature-id vector happens to agree: construction succeeds and yields a
placeholder with three rows although the shape argument declared two. -/
theorem hollow_init_sanity_check_misses_single_mismatch :
    HollowSamples.init (some [2, 3]) (some [0, 1, 2]) (some [0, 1, 2]) "float64"
      = .ok ⟨[0, 1, 2], [0, 1, 2], "float64"⟩
    ∧ (⟨[0, 1, 2], [0, 1, 2], "float64"⟩ : HollowSamples).shape = (3, 3) := by
  exact ⟨rfl, rfl⟩

/-- C8 counterexample: indexing a placeholder with zero index
expressions is not supported — the empty tuple reaches `args[0]` on an
empty list and raises an IndexError instead of returning a placeholder. -/
theorem hollow_getitem_empty_tuple_raises :
    (⟨[10, 11], [20, 21, 22], "float64"⟩ : HollowSamples).getitem (.tup [])
      = .error .indexError := rfl

/-- C8 (amended): placeholder indexing supports 1 or 2 index
expressions — a single one applies to the rows with every column kept —
and raises an error for more than 2 (an empty index tuple raises an
IndexError); every integer index is normalized to a single-element
sequence before being applied, so the result keeps both dimensions:
selecting row `i` and column `j` yields the shape-(1,1) placeholder
holding exactly those two ids. -/
theorem hollow_getitem_indexing (hs : HollowSamples) :
    (∀ l : List Sel, 2 < l.length →
      hs.getitem (.tup l) = .error (.valueError "Too many arguments"))
    ∧ (∀ s : Sel, hs.getitem (.single s) = hs.getitem (.tup [s, .sliceAll]))
    ∧ (∀ (i : Int) (a1 : Sel),
        hs.getitem (.tup [.intE i, a1]) = hs.getitem (.tup [.ilist [i], a1]))
    ∧ (∀ (a0 : Sel) (j : Int),
        hs.getitem (.tup [a0, .intE j]) = hs.getitem (.tup [a0, .ilist [j]]))
    ∧ (∀ (i j : Int) (si fj : Nat),
        normIdx i hs.sid.length = .ok si → normIdx j hs.fid.length = .ok fj →
        hs.getitem (.tup [.intE i, .intE j])
          = .ok ⟨[hs.sid.getD si 0], [hs.fid.getD fj 0], hs.dtype⟩) := by
  refine ⟨?_, ?_, ?_, ?_, ?_⟩
  · intro l hl
    match l, hl with
    | a :: b :: c :: t, _ =>
      simp [HollowSamples.getitem, PyIndex.toArgs]
  · intro s
    simp [HollowSamples.getitem, PyIndex.toArgs]
  · intro i a1
    simp [HollowSamples.getitem, PyIndex.toArgs]
  · intro a0 j
    cases a0 <;> simp [HollowSamples.getitem, PyIndex.toArgs]
  · intro i j si fj hi hj
    simp [HollowSamples.getitem, PyIndex.toArgs, selIdxs, hi, hj,
      List.mapM.loop, HollowSamples.init, Except.bind]
    rfl

/-- Witness for C8 (amended) on a concrete placeholder: three index
expressions raise, one expression keeps all columns, and selecting row
0 and column 1 (given as plain integers) yields the (1,1) placeholder. -/
theorem hollow_getitem_indexing_witness :
    (⟨[10, 11], [20, 21, 22], "float64"⟩ : HollowSamples).getitem
        (.tup [.sliceAll, .sliceAll, .sliceAll]) = .error (.valueError "Too many arguments")
    ∧ (⟨[10, 11], [20, 21, 22], "float64"⟩ : HollowSamples).getitem
        (.tup [.intE 0, .intE 1]) = .ok ⟨[10], [21], "float64"⟩ := by
  constructor
  · exact (hollow_getitem_indexing ⟨[10, 11], [20, 21, 22], "float64"⟩).1
      [.sliceAll, .sliceAll, .sliceAll] (by decide)
  · exact ((hollow_getitem_indexing ⟨[10, 11], [20, 21, 22], "float64"⟩).2.2.2.2
      0 1 0 1 rfl rfl).trans rfl

/-- C2: appending to a dataset whose recorded mapper attribute is a bare
single mapper first promotes it to an explicit chain of length one; when
that (now last) element is a static feature selection an in-place merge
with the new mapper is attempted, and a composition incompatibility (the
TypeError of `+=`) is converted into appending the new mapper as a
separate chain element; the operation always returns successfully, so
the composition failure is never surfaced to the caller. -/
theorem append_mapper_promotes_and_merges (ds : Dataset) (pm m : Mapper)
    (hlk : List.lookup "mapper" ds.a = some (.mapperV pm))
    (hnc : pm.isChain = false) :
    ds.append_mapper m
      = .ok { ds with a := colSet ds.a "mapper" (.mapperV (.chainM
          (match pm with
           | .staticFS s d _ =>
               (match sfsIadd s d m with
                | some merged => [merged]
                | none => [pm, m])
           | _ => [pm, m]))) } := by
  cases pm with
  | chainM ms => simp [Mapper.isChain] at hnc
  | staticFS s d o =>
      cases hadd : sfsIadd s d m <;>
        simp [Dataset.append_mapper, hlk, Mapper.chainElems, hadd]
  | flattenM sh sp => simp [Dataset.append_mapper, hlk, Mapper.chainElems]
  | maskM mk sp => simp [Dataset.append_mapper, hlk, Mapper.chainElems]

/-- Witness for C2 on concrete data: merging an incompatible mapper (a
flattening mapper cannot be merged into a static feature selection)
falls back to appending, yielding a two-element chain, and merging a
compatible static selection composes the two selections in place,
keeping the chain at length one. -/
theorem append_mapper_promotes_and_merges_witness :
    ({ samples := ⟨[2, 3], [1, 2, 3, 4, 5, 6]⟩, sa := [], fa := [],
       a := [("mapper", .mapperV (.staticFS (.ilist [0, 2, 4]) [5] none))] } : Dataset).append_mapper
        (.flattenM [3] none)
      = .ok { samples := ⟨[2, 3], [1, 2, 3, 4, 5, 6]⟩, sa := [], fa := [],
              a := [("mapper", .mapperV (.chainM
                [.staticFS (.ilist [0, 2, 4]) [5] none, .flattenM [3] none]))] }
    ∧ ({ samples := ⟨[2, 3], [1, 2, 3, 4, 5, 6]⟩, sa := [], fa := [],
         a := [("mapper", .mapperV (.staticFS (.ilist [0, 2, 4]) [5] none))] } : Dataset).append_mapper
        (.staticFS (.ilist [1, 2]) [3] none)
      = .ok { samples := ⟨[2, 3], [1, 2, 3, 4, 5, 6]⟩, sa := [], fa := [],
              a := [("mapper", .mapperV (.chainM
                [.staticFS (.ilist [2, 4]) [5] none]))] } := by
  constructor
  · exact (append_mapper_promotes_and_merges
      { samples := ⟨[2, 3], [1, 2, 3, 4, 5, 6]⟩, sa := [], fa := [],
        a := [("mapper", .mapperV (.staticFS (.ilist [0, 2, 4]) [5] none))] }
      (.staticFS (.ilist [0, 2, 4]) [5] none) (.flattenM [3] none) rfl rfl).trans rfl
  · exact (append_mapper_promotes_and_merges
      { samples := ⟨[2, 3], [1, 2, 3, 4, 5, 6]⟩, sa := [], fa := [],
        a := [("mapper", .mapperV (.staticFS (.ilist [0, 2, 4]) [5] none))] }
      (.staticFS (.ilist [0, 2, 4]) [5] none) (.staticFS (.ilist [1, 2]) [3] none) rfl rfl).trans rfl

/-- C9: operations that raise leave the dataset exactly as it was.  In
this embedding every producing operation (`getitem`, `get_mapped`, the
factories) is a function of the receiver that builds its result as a new
value, so the receiver is untouched by construction; the two operations
that mutate an existing dataset are attribute assignment and mapper
recording.  For attribute assignment (state-passing `set_attrS`) every
error is raised before the single write, so the post-state equals the
pre-state; mapper recording never errors on any state reachable in the
shown code (no recorded mapper, or a recorded mapper whose chain view is
nonempty), so it never leaves a partially promoted chain behind. -/
theorem setInColl_error_keeps (ds : Dataset) (k : CollKind) (n : String)
    (v : AttrVal) (e : PyErr) (h : (ds.setInColl k n v).1 = .error e) :
    (ds.setInColl k n v).2 = ds := by
  cases k with
  | sa =>
      by_cases hv : v.len = some ds.nrows
      · simp [Dataset.setInColl, hv] at h
      · simp [Dataset.setInColl, hv]
  | fa =>
      by_cases hv : v.len = some ds.ncols
      · simp [Dataset.setInColl, hv] at h
      · simp [Dataset.setInColl, hv]
  | a => simp [Dataset.setInColl] at h

theorem error_leaves_state_unchanged :
    (∀ (ds : Dataset) (nm : String) (v : AttrVal) (e : PyErr),
       (ds.set_attrS nm v).1 = .error e → (ds.set_attrS nm v).2 = ds)
    ∧ (∀ (ds : Dataset) (m : Mapper),
        (List.lookup "mapper" ds.a = none ∨
          ∃ pm, List.lookup "mapper" ds.a = some (.mapperV pm) ∧ pm.chainElems ≠ []) →
        ∃ ds', ds.append_mapper m = .ok ds') := by
  constructor
  · intro ds nm v e herr
    unfold Dataset.set_attrS at herr ⊢
    cases hsp : pySplit nm (Char.ofNat 46) with
    | nil =>
        simp only [hsp] at herr ⊢
        cases hfc : ds.find_collection nm with
        | error e2 => simp only [hfc]
        | ok kw =>
            obtain ⟨k, w⟩ := kw
            simp only [hfc] at herr ⊢
            exact setInColl_error_keeps ds k nm v e herr
    | cons c t =>
        cases t with
        | nil =>
            simp only [hsp] at herr ⊢
            cases hfc : ds.find_collection nm with
            | error e2 => simp only [hfc]
            | ok kw =>
                obtain ⟨k, w⟩ := kw
                simp only [hfc] at herr ⊢
                exact setInColl_error_keeps ds k nm v e herr
        | cons attr r =>
            simp only [hsp] at herr ⊢
            cases hco : Dataset.collection_id2obj c with
            | error e2 => simp only [hco]
            | ok k =>
                simp only [hco] at herr ⊢
                exact setInColl_error_keeps ds k attr v e herr
  · intro ds m h
    rcases h with hnone | ⟨pm, hsome, hne⟩
    · exact ⟨{ ds with a := colSet ds.a "mapper" (.mapperV m) },
        by simp [Dataset.append_mapper, hnone]⟩
    · unfold Dataset.append_mapper
      rw [hsome]
      cases hl : pm.chainElems.getLast? with
      | none => exact absurd (List.getLast?_eq_none_iff.mp hl) hne
      | some last =>
          cases last with
          | staticFS s d o =>
              cases hadd : sfsIadd s d m <;> simp [hl, hadd]
          | flattenM sh sp => simp [hl]
          | maskM mk sp => simp [hl]
          | chainM ms => simp [hl]

/-- Witness for C9: assigning a sample attribute of the wrong length
fails and leaves the concrete dataset unchanged, and recording a mapper
on a dataset carrying a bare mapper succeeds. -/
theorem error_leaves_state_unchanged_witness :
    (({ samples := ⟨[2, 3], [1, 2, 3, 4, 5, 6]⟩,
        sa := [("targets", .arr ⟨[2], [0, 1]⟩)], fa := [], a := [] } : Dataset).set_attrS
          "targets" (.arr ⟨[3], [0, 1, 2]⟩)).2
      = { samples := ⟨[2, 3], [1, 2, 3, 4, 5, 6]⟩,
          sa := [("targets", .arr ⟨[2], [0, 1]⟩)], fa := [], a := [] }
    ∧ ∃ ds', ({ samples := ⟨[2, 3], [1, 2, 3, 4, 5, 6]⟩, sa := [], fa := [],
                a := [("mapper", .mapperV (.flattenM [3] none))] } : Dataset).append_mapper
          (.staticFS (.ilist [0]) [3] none) = .ok ds' := by
  constructor
  · exact error_leaves_state_unchanged.1
      { samples := ⟨[2, 3], [1, 2, 3, 4, 5, 6]⟩,
        sa := [("targets", .arr ⟨[2], [0, 1]⟩)], fa := [], a := [] }
      "targets" (.arr ⟨[3], [0, 1, 2]⟩) (.valueError "sample attribute length mismatch") rfl
  · exact error_leaves_state_unchanged.2
      { samples := ⟨[2, 3], [1, 2, 3, 4, 5, 6]⟩, sa := [], fa := [],
        a := [("mapper", .mapperV (.flattenM [3] none))] }
      (.staticFS (.ilist [0]) [3] none)
      (Or.inr ⟨.flattenM [3] none, rfl, by simp [Mapper.chainElems]⟩)

theorem except_bind_ok {ε α β : Type} {x : Except ε α} {f : α → Except ε β} {b : β}
    (h : x >>= f = .ok b) : ∃ a, x = .ok a ∧ f a = .ok b := by
  cases x with
  | error e => simp [Bind.bind, Except.bind] at h
  | ok a => exact ⟨a, rfl, by simpa [Bind.bind, Except.bind] using h⟩

theorem baseGetitem_keeps_a (ds : Dataset) (args : List Sel) (r : Dataset)
    (h : baseGetitem ds args = .ok r) : r.a = ds.a := by
  unfold baseGetitem at h
  rcases hsh : ds.samples.shape with _ | ⟨n, _ | ⟨c, _ | ⟨x, t⟩⟩⟩ <;>
    simp only [hsh] at h
  · cases h
  · cases h
  · obtain ⟨rows, hr, h⟩ := except_bind_ok h
    obtain ⟨cols, hc, h⟩ := except_bind_ok h
    simp only [Except.ok.injEq] at h
    subst h
    rfl
  · cases h

theorem chargeSFS_shape (ds : Dataset) (t : Sel) (sm : Mapper)
    (h : chargeSFS t ds = .ok sm) :
    ∃ osh, sm = .staticFS t ds.samples.shape.tail (some osh) := by
  unfold chargeSFS at h
  obtain ⟨r, hf, h2⟩ := except_bind_ok h
  simp only [Except.ok.injEq] at h2
  subst h2
  unfold Mapper.forwardArr at hf
  rcases ht : ds.samples.shape.tail with _ | ⟨c, _ | ⟨x, t2⟩⟩ <;>
    simp only [ht] at hf
  · cases hf
  · obtain ⟨idxs, hsel, hf2⟩ := except_bind_ok hf
    simp only [Except.ok.injEq] at hf2
    rw [← hf2]
    exact ⟨[idxs.length], by simp [ht]⟩
  · cases hf

theorem exceptOkBind {ε α β : Type} (a : α) (f : α → Except ε β) :
    ((Except.ok a : Except ε α) >>= f) = f a := rfl

theorem exceptErrorBind {ε α β : Type} (e : ε) (f : α → Except ε β) :
    ((Except.error e : Except ε α) >>= f) = (Except.error e : Except ε β) := rfl

/-- C1: on a dataset carrying a recorded mapper, a two-element index
whose second element selects on the feature axis behaves as: the second
element is first fed through `mapper.forward1` exactly when it is an
ndarray with more than one dimension (translating it into
flat-feature-space indices before the underlying slice), the underlying
row/column slicing primitive runs on the translated index, and the
sliced dataset gets the mapper chain extended via `append_mapper` with a
static-feature-selection mapper constructed from exactly that (effective)
second index element, bound to the pre-slice feature shape and charged
with its output shape by a forward pass over a throwaway all-false
placeholder. -/
theorem getitem_appends_charged_feature_selection (ds : Dataset) (m : Mapper)
    (a0 a1 : Sel) (hm : List.lookup "mapper" ds.a = some (.mapperV m)) :
    ds.getitem (.tup [a0, a1])
      = (do
          let a1t ← if a1.ndim > 1 then m.forward1Sel a1 else pure a1
          let sliced ← baseGetitem ds [a0, a1t]
          let subsetmapper ← chargeSFS a1t ds
          sliced.append_mapper subsetmapper)
    ∧ (∀ (t : Sel) (sm : Mapper), chargeSFS t ds = .ok sm →
        ∃ osh, sm = .staticFS t ds.samples.shape.tail (some osh)) := by
  have hch : colHas ds.a "mapper" = true := by simp [colHas, hm]
  constructor
  · by_cases hnd : a1.ndim > 1
    · simp only [Dataset.getitem, PyIndex.toArgs, hch, hnd, and_true, if_true, hm]
      cases hft : m.forward1Sel a1 with
      | error e => simp [hft, pure, Except.pure, exceptOkBind, exceptErrorBind]
      | ok a1t =>
          cases hbg : baseGetitem ds [a0, a1t] with
          | error e => simp [hbg, pure, Except.pure, exceptOkBind, exceptErrorBind]
          | ok sliced =>
              have ha : colHas sliced.a "mapper" = true := by
                rw [baseGetitem_keeps_a ds [a0, a1t] sliced hbg]; exact hch
              simp [hbg, ha, pure, Except.pure, exceptOkBind, exceptErrorBind]
    · simp only [Dataset.getitem, PyIndex.toArgs, hch, hnd, and_true, if_false]
      cases hbg : baseGetitem ds [a0, a1] with
      | error e => simp [hnd, hbg, pure, Except.pure, exceptOkBind, exceptErrorBind]
      | ok sliced =>
          have ha : colHas sliced.a "mapper" = true := by
            rw [baseGetitem_keeps_a ds [a0, a1] sliced hbg]; exact hch
          simp [hnd, hbg, ha, pure, Except.pure, exceptOkBind, exceptErrorBind]
  · exact fun t sm h => chargeSFS_shape ds t sm h

/-- Witness for C1 on concrete data: slicing a flattened dataset with a
two-dimensional boolean selector forward-maps the selector to flat
space, slices, and appends the charged static feature selection (bound
to the pre-slice feature shape `[6]`) to the recorded chain. -/
theorem getitem_appends_charged_feature_selection_witness :
    ({ samples := ⟨[2, 6], [0, 1, 2, 3, 4, 5, 6, 7, 8, 9, 10, 11]⟩,
       sa := [], fa := [],
       a := [("mapper", .mapperV (.flattenM [2, 3] none))] } : Dataset).getitem
        (.tup [.sliceAll, .barr ⟨[2, 3], [true, false, true, false, false, true]⟩])
      = .ok { samples := ⟨[2, 3], [0, 2, 5, 6, 8, 11]⟩,
              sa := [], fa := [],
              a := [("mapper", .mapperV (.chainM
                [.flattenM [2, 3] none,
                 .staticFS (.barr ⟨[6], [true, false, true, false, false, true]⟩)
                   [6] (some [3])]))] } := by
  exact ((getitem_appends_charged_feature_selection
    { samples := ⟨[2, 6], [0, 1, 2, 3, 4, 5, 6, 7, 8, 9, 10, 11]⟩,
      sa := [], fa := [],
      a := [("mapper", .mapperV (.flattenM [2, 3] none))] }
    (.flattenM [2, 3] none) .sliceAll
    (.barr ⟨[2, 3], [true, false, true, false, false, true]⟩) rfl).1).trans rfl

theorem exceptPure {ε α : Type} (a : α) : (pure a : Except ε α) = Except.ok a := rfl

/-- C3: for an input array with more than two dimensions and no mask,
`from_wizard` applies and records a flattening mapper — yielding a 2-D
dataset whose feature count is the product of the non-observation axes —
exactly when flattening was explicitly requested or neither an explicit
flatten flag nor a user mapper was given; with `flatten=False` no
flattening mapper is recorded, and a user mapper alone (no flatten flag)
also disables the auto-flatten, the user mapper being applied to the
unflattened base. -/
theorem from_wizard_autoflatten (samples : NDA Nat) (targets chunks : Option AttrSpec)
    (flatten : Option Bool) (space : Option String)
    (hdim : samples.shape.length > 2)
    (htg : ∀ t, targets = some t → ∃ v, expandAttr t (samples.shape.headD 0) = .ok v)
    (hck : ∀ t, chunks = some t → ∃ v, expandAttr t (samples.shape.headD 0) = .ok v) :
    (flatten ≠ some false →
      ∃ ds, Dataset.from_wizard samples targets chunks none none flatten space = .ok ds
        ∧ ds.samples.shape = [samples.shape.headD 0, samples.shape.tail.prod]
        ∧ List.lookup "mapper" ds.a
            = some (.mapperV (.flattenM samples.shape.tail space)))
    ∧ (flatten = some false →
      ∃ ds, Dataset.from_wizard samples targets chunks none none flatten space = .ok ds
        ∧ ds.samples = samples
        ∧ List.lookup "mapper" ds.a = none)
    ∧ (∀ mu : Mapper,
        Dataset.from_wizard samples targets chunks none (some mu) (some true) space
          = (Dataset.from_wizard samples targets chunks none none (some true) space).bind
              (fun d => d.get_mapped mu))
    ∧ (∀ mu : Mapper,
        Dataset.from_wizard samples targets chunks none (some mu) none space
          = (Dataset.from_wizard samples targets chunks none none (some false) space).bind
              (fun d => d.get_mapped mu)) := by
  obtain ⟨shp, dat⟩ := samples
  rcases shp with _ | ⟨n, rest⟩
  · simp at hdim
  have hdim2 : 2 < rest.length + 1 := by simpa using hdim
  rcases hT : targets with _ | t <;> rcases hC : chunks with _ | c <;>
    [skip;
     obtain ⟨cv, hcv⟩ := hck c hC;
     obtain ⟨tv, htv⟩ := htg t hT;
     (obtain ⟨tv, htv⟩ := htg t hT; obtain ⟨cv, hcv⟩ := hck c hC)] <;>
    subst hT <;> subst hC <;>
    refine ⟨fun hnf => ?_, fun hff => ?_, fun mu => ?_, fun mu => ?_⟩
  all_goals try subst hff
  all_goals try (rcases flatten with _ | b)
  all_goals try (rcases b with _ | _)
  all_goals try (exact absurd rfl hnf)
  all_goals try (replace htv : expandAttr t n = Except.ok tv := by simpa using htv)
  all_goals try (replace hcv : expandAttr c n = Except.ok cv := by simpa using hcv)
  all_goals
    simp [Dataset.from_wizard, Dataset.get_mapped, Mapper.forwardDs,
      Dataset.append_mapper, hdim2, exceptPure, exceptOkBind, *]
  all_goals rfl

/-- Witness for C3: a 3-D input of shape (2,2,3), a scalar target, no
mask, no mapper and no flatten flag auto-flattens to a 2-D dataset with
2x3 = 6 features and records the flattening mapper. -/
theorem from_wizard_autoflatten_witness :
    ∃ ds, Dataset.from_wizard ⟨[2, 2, 3], List.range 12⟩ (some (.scalar 1)) none
        none none none none = .ok ds
      ∧ ds.samples.shape = [2, 6]
      ∧ List.lookup "mapper" ds.a = some (.mapperV (.flattenM [2, 3] none)) := by
  have h := (from_wizard_autoflatten ⟨[2, 2, 3], List.range 12⟩ (some (.scalar 1))
    none none none (by decide)
    (fun t ht => by cases ht; exact ⟨⟨[2], [1, 1]⟩, rfl⟩)
    (fun t ht => by cases ht)).1 (by decide)
  simpa using h

theorem expandAttr_error (v : AttrSpec) (n : Nat) (e : PyErr)
    (h : expandAttr v n = .error e) :
    e = .valueError "attribute length does not match the number of samples" := by
  cases v with
  | scalar x => cases h
  | vec a =>
      unfold expandAttr at h
      by_cases hc : a.shape.head? = some n
      · simp [hc] at h
      · simp only [hc, if_false] at h
        cases h
        rfl

theorem from_wizard_3d (n ch tp : Nat) (dat : List Nat)
    (targets chunks : Option AttrSpec) :
    (∃ sa2, Dataset.from_wizard ⟨[n, ch, tp], dat⟩ targets chunks none none none none
        = .ok { samples := ⟨[n, ([ch, tp] : List Nat).prod], dat⟩, sa := sa2, fa := [],
                a := [("mapper", .mapperV (.flattenM [ch, tp] none))] })
    ∨ Dataset.from_wizard ⟨[n, ch, tp], dat⟩ targets chunks none none none none
        = .error (.valueError "attribute length does not match the number of samples") := by
  rcases targets with _ | t <;> rcases chunks with _ | c
  · refine Or.inl ⟨[], ?_⟩
    simp [Dataset.from_wizard, Dataset.get_mapped, Mapper.forwardDs,
      Dataset.append_mapper, colSet, exceptPure, exceptOkBind]
  · cases hE : expandAttr c n with
    | error e =>
        refine Or.inr ?_
        have he := expandAttr_error c n e hE
        subst he
        simp [Dataset.from_wizard, hE, exceptPure, exceptOkBind, exceptErrorBind]
    | ok v =>
        refine Or.inl ⟨colSet [] "chunks" (.arr v), ?_⟩
        simp [Dataset.from_wizard, hE, Dataset.get_mapped, Mapper.forwardDs,
          Dataset.append_mapper, colSet, exceptPure, exceptOkBind]
  · cases hE : expandAttr t n with
    | error e =>
        refine Or.inr ?_
        have he := expandAttr_error t n e hE
        subst he
        simp [Dataset.from_wizard, hE, exceptPure, exceptOkBind, exceptErrorBind]
    | ok v =>
        refine Or.inl ⟨colSet [] "targets" (.arr v), ?_⟩
        simp [Dataset.from_wizard, hE, Dataset.get_mapped, Mapper.forwardDs,
          Dataset.append_mapper, colSet, exceptPure, exceptOkBind]
  · cases hEt : expandAttr t n with
    | error e =>
        refine Or.inr ?_
        have he := expandAttr_error t n e hEt
        subst he
        simp [Dataset.from_wizard, hEt, exceptPure, exceptOkBind, exceptErrorBind]
    | ok tv =>
        cases hEc : expandAttr c n with
        | error e =>
            refine Or.inr ?_
            have he := expandAttr_error c n e hEc
            subst he
            simp [Dataset.from_wizard, hEt, hEc, exceptPure, exceptOkBind, exceptErrorBind]
        | ok cv =>
            refine Or.inl ⟨colSet (colSet [] "targets" (.arr tv)) "chunks" (.arr cv), ?_⟩
            simp [Dataset.from_wizard, hEt, hEc, Dataset.get_mapped, Mapper.forwardDs,
              Dataset.append_mapper, colSet, exceptPure, exceptOkBind]

/-- C7: `from_channeltimeseries` raises the shape error exactly when the
input is not three-dimensional; it raises the channel-count error
exactly when the input is 3-D while the given channel ids disagree with
the channel axis length; and every other failure is one propagated from
the delegated `from_wizard` call, never originated in this factory. -/
theorem from_channeltimeseries_validation (samples : NDA Nat)
    (targets chunks : Option AttrSpec) (t0 dt : Option Nat) (cids : Option (List Nat)) :
    (Dataset.from_channeltimeseries samples targets chunks t0 dt cids
        = .error (.valueError "Input data should be samples x channels x timepoints")
      ↔ samples.shape.length ≠ 3)
    ∧ (Dataset.from_channeltimeseries samples targets chunks t0 dt cids
        = .error (.valueError "Number of channel ids does not match channels")
      ↔ samples.shape.length = 3
          ∧ ∃ l, cids = some l ∧ l.length ≠ samples.shape.getD 1 0)
    ∧ (∀ e, Dataset.from_channeltimeseries samples targets chunks t0 dt cids = .error e →
        e = .valueError "Input data should be samples x channels x timepoints"
        ∨ e = .valueError "Number of channel ids does not match channels"
        ∨ Dataset.from_wizard samples targets chunks none none none none = .error e) := by
  obtain ⟨shp, dat⟩ := samples
  by_cases h3 : shp.length = 3
  · rcases shp with _ | ⟨n, _ | ⟨ch, _ | ⟨tp, _ | ⟨x, t4⟩⟩⟩⟩ <;> simp at h3
    rcases cids with _ | l
    · rcases from_wizard_3d n ch tp dat targets chunks with ⟨sa2, hok⟩ | herr
      · have hres : ∃ X, Dataset.from_channeltimeseries ⟨[n, ch, tp], dat⟩
            targets chunks t0 dt none = .ok X := by
          cases hres2 : Dataset.from_channeltimeseries ⟨[n, ch, tp], dat⟩
              targets chunks t0 dt none with
          | ok X => exact ⟨X, rfl⟩
          | error e =>
              rcases t0 with _ | a <;> rcases dt with _ | b <;>
                simp [Dataset.from_channeltimeseries, hok, Dataset.aMapper,
                  Mapper.forward1, Dataset.setFa, Dataset.setInColl, AttrVal.len,
                  Dataset.ncols, exceptPure, exceptOkBind, exceptErrorBind] at hres2
        obtain ⟨X, hres⟩ := hres
        refine ⟨?_, ?_, ?_⟩
        · rw [hres]; simp
        · rw [hres]; simp
        · intro e he; rw [hres] at he; cases he
      · have hres : Dataset.from_channeltimeseries ⟨[n, ch, tp], dat⟩
            targets chunks t0 dt none
            = .error (.valueError "attribute length does not match the number of samples") := by
          simp [Dataset.from_channeltimeseries, herr, exceptPure, exceptOkBind,
            exceptErrorBind]
        refine ⟨?_, ?_, ?_⟩
        · rw [hres]; simp
        · rw [hres]; simp
        · intro e he
          rw [hres] at he
          injection he with he2
          exact Or.inr (Or.inr (he2 ▸ herr))
    · by_cases hl : l.length = ch
      · rcases from_wizard_3d n ch tp dat targets chunks with ⟨sa2, hok⟩ | herr
        · have hres : ∃ X, Dataset.from_channeltimeseries ⟨[n, ch, tp], dat⟩
              targets chunks t0 dt (some l) = .ok X := by
            cases hres2 : Dataset.from_channeltimeseries ⟨[n, ch, tp], dat⟩
                targets chunks t0 dt (some l) with
            | ok X => exact ⟨X, rfl⟩
            | error e =>
                rcases t0 with _ | a <;> rcases dt with _ | b <;>
                  simp [Dataset.from_channeltimeseries, hl, hok, Dataset.aMapper,
                    Mapper.forward1, Dataset.setFa, Dataset.setInColl, AttrVal.len,
                    Dataset.ncols, exceptPure, exceptOkBind, exceptErrorBind] at hres2
          obtain ⟨X, hres⟩ := hres
          refine ⟨?_, ?_, ?_⟩
          · rw [hres]; simp
          · rw [hres]; simp [hl]
          · intro e he; rw [hres] at he; cases he
        · have hres : Dataset.from_channeltimeseries ⟨[n, ch, tp], dat⟩
              targets chunks t0 dt (some l)
              = .error (.valueError "attribute length does not match the number of samples") := by
            simp [Dataset.from_channeltimeseries, hl, herr, exceptPure, exceptOkBind,
              exceptErrorBind]
          refine ⟨?_, ?_, ?_⟩
          · rw [hres]; simp
          · rw [hres]; simp [hl]
          · intro e he
            rw [hres] at he
            injection he with he2
            exact Or.inr (Or.inr (he2 ▸ herr))
      · have hres : Dataset.from_channeltimeseries ⟨[n, ch, tp], dat⟩
            targets chunks t0 dt (some l)
            = .error (.valueError "Number of channel ids does not match channels") := by
          simp [Dataset.from_channeltimeseries, hl, exceptPure, exceptOkBind,
            exceptErrorBind]
        refine ⟨?_, ?_, ?_⟩
        · rw [hres]; simp
        · rw [hres]; simp [hl]
        · intro e he
          rw [hres] at he
          injection he with he2
          exact Or.inr (Or.inl he2.symm)
  · have hres : Dataset.from_channeltimeseries ⟨shp, dat⟩ targets chunks t0 dt cids
        = .error (.valueError "Input data should be samples x channels x timepoints") := by
      simp [Dataset.from_channeltimeseries, h3]
    refine ⟨?_, ?_, ?_⟩
    · rw [hres]; simp [h3]
    · rw [hres]; simp [h3]
    · intro e he
      rw [hres] at he
      injection he with he2
      exact Or.inl he2.symm

/-- Witness for C7: a 2-D input raises exactly the shape error, and a
3-D input with two channel ids for three channels raises exactly the
count-mismatch error. -/
theorem from_channeltimeseries_validation_witness :
    Dataset.from_channeltimeseries ⟨[2, 3], List.range 6⟩ none none none none none
      = .error (.valueError "Input data should be samples x channels x timepoints")
    ∧ Dataset.from_channeltimeseries ⟨[2, 3, 4], List.range 24⟩ none none none none
        (some [7, 8])
      = .error (.valueError "Number of channel ids does not match channels") := by
  constructor
  · exact ((from_channeltimeseries_validation ⟨[2, 3], List.range 6⟩
      none none none none none).1).mpr (by decide)
  · exact ((from_channeltimeseries_validation ⟨[2, 3, 4], List.range 24⟩
      none none none none (some [7, 8])).2.1).mpr ⟨rfl, [7, 8], rfl, by decide⟩

theorem lookup_congr_of_perm {β : Type} (k : String) :
    ∀ {c1 c2 : List (String × β)}, c1.Perm c2 → (c1.map Prod.fst).Nodup →
      List.lookup k c1 = List.lookup k c2 := by
  intro c1 c2 h
  induction h with
  | nil => intro _; rfl
  | cons x h ih =>
      intro hnd
      simp only [List.map_cons, List.nodup_cons] at hnd
      simp only [List.lookup]
      cases hkx : k == x.1
      · exact ih hnd.2
      · rfl
  | swap x y l =>
      intro hnd
      simp only [List.map_cons, List.nodup_cons, List.mem_cons] at hnd
      have hxy : y.1 ≠ x.1 := fun h => hnd.1 (Or.inl h)
      simp only [List.lookup]
      cases hky : k == y.1 <;> cases hkx : k == x.1 <;> try rfl
      exact absurd ((eq_of_beq hky).symm.trans (eq_of_beq hkx)) hxy
  | trans h12 h23 ih12 ih23 =>
      intro hnd
      refine (ih12 hnd).trans (ih23 ?_)
      exact ((h12.map Prod.fst).nodup_iff).mp hnd

theorem idhashCol_congr_of_perm (fpv : AttrVal → String) (c1 c2 : Coll)
    (h : c1.Perm c2) (hnd : (c1.map Prod.fst).Nodup) :
    idhashCol fpv c1 = idhashCol fpv c2 := by
  unfold idhashCol
  have hkeys : (c1.map Prod.fst).Perm (c2.map Prod.fst) := h.map Prod.fst
  have hsorted :
      List.insertionSort (fun x y => x ≤ y) (c1.map Prod.fst)
        = List.insertionSort (fun x y => x ≤ y) (c2.map Prod.fst) :=
    List.eq_of_perm_of_sorted
      ((List.perm_insertionSort (fun x y : String => x ≤ y) (c1.map Prod.fst)).trans
        (hkeys.trans (List.perm_insertionSort (fun x y : String => x ≤ y)
          (c2.map Prod.fst)).symm))
      (List.sorted_insertionSort (fun x y : String => x ≤ y) (c1.map Prod.fst))
      (List.sorted_insertionSort (fun x y : String => x ≤ y) (c2.map Prod.fst))
  rw [hsorted]
  have hlook : ∀ k, List.lookup k c1 = List.lookup k c2 :=
    fun k => lookup_congr_of_perm k h hnd
  simp only [hlook]

/-- C6: the identity fingerprint is deterministic — an unmodified
dataset yields the same string twice — and its attribute portion is
independent of attribute insertion order: since each collection iterates
its names lexicographically sorted, two datasets whose collections hold
the same name-value associations (as permutations of each other, names
unique within a collection) contribute identical attribute portions. -/
theorem idhash_deterministic_and_order_independent
    (fpd : Dataset → String) (fpa : NDA Nat → String) (fpv : AttrVal → String)
    (ds1 ds2 : Dataset)
    (hsamp : ds1.samples = ds2.samples)
    (hpa : ds1.a.Perm ds2.a) (hpsa : ds1.sa.Perm ds2.sa) (hpfa : ds1.fa.Perm ds2.fa)
    (hna : (ds1.a.map Prod.fst).Nodup) (hnsa : (ds1.sa.map Prod.fst).Nodup)
    (hnfa : (ds1.fa.map Prod.fst).Nodup) :
    Dataset.idhash fpd fpa fpv ds1 = Dataset.idhash fpd fpa fpv ds1
    ∧ idhashCol fpv ds1.a ++ idhashCol fpv ds1.sa ++ idhashCol fpv ds1.fa
        = idhashCol fpv ds2.a ++ idhashCol fpv ds2.sa ++ idhashCol fpv ds2.fa
    ∧ (fpd ds1 = fpd ds2 →
        Dataset.idhash fpd fpa fpv ds1 = Dataset.idhash fpd fpa fpv ds2) := by
  have ha := idhashCol_congr_of_perm fpv ds1.a ds2.a hpa hna
  have hsa := idhashCol_congr_of_perm fpv ds1.sa ds2.sa hpsa hnsa
  have hfa := idhashCol_congr_of_perm fpv ds1.fa ds2.fa hpfa hnfa
  refine ⟨rfl, by rw [ha, hsa, hfa], fun hfd => ?_⟩
  unfold Dataset.idhash
  rw [ha, hsa, hfa, hsamp, hfd]

/-- Witness for C6: two concrete datasets whose dataset-attribute
collections hold the same two associations in opposite insertion order
contribute identical attribute portions to the fingerprint. -/
theorem idhash_order_independent_witness :
    idhashCol (fun _ => "h") [("m", .arr ⟨[1], [1]⟩), ("z", .arr ⟨[1], [2]⟩)]
        ++ idhashCol (fun _ => "h") [] ++ idhashCol (fun _ => "h") []
      = idhashCol (fun _ => "h") [("z", .arr ⟨[1], [2]⟩), ("m", .arr ⟨[1], [1]⟩)]
        ++ idhashCol (fun _ => "h") [] ++ idhashCol (fun _ => "h") [] :=
  (idhash_deterministic_and_order_independent (fun _ => "d") (fun _ => "s")
    (fun _ => "h")
    { samples := ⟨[2], [3, 4]⟩, sa := [], fa := [],
      a := [("m", .arr ⟨[1], [1]⟩), ("z", .arr ⟨[1], [2]⟩)] }
    { samples := ⟨[2], [3, 4]⟩, sa := [], fa := [],
      a := [("z", .arr ⟨[1], [2]⟩), ("m", .arr ⟨[1], [1]⟩)] }
    rfl
    (List.Perm.swap ("z", AttrVal.arr ⟨[1], [2]⟩) ("m", AttrVal.arr ⟨[1], [1]⟩) [])
    (List.Perm.refl []) (List.Perm.refl [])
    (by decide) (by decide) (by decide)).2.1
